import Mathlib

/-!
Verification of the LedFB pixel-framebuffer library (vortigont/LedFB).

This file gives a shallow embedding of the library's core data model and
operations, translated from the C++ sources:

* `LedStripe.transpose` / `LedTiles.transpose` — topology mappers
  (src/ledfb/ledstripe.cpp);
* `LedFB_GFX.color16toCRGB` / `LedFB_GFX.colorCRGBto16` — RGB565 color
  conversion (src/ledfb/ledfb.hpp);
* `CLedCDB` with `bind` / `swap` / `rebind` — bound pixel store keeping a
  CLEDController sink synchronized with its backing storage
  (src/ledfb/ledfb.cpp);
* the ESP32 RMT / HUB75 display engines' `toggleBuffer`
  (src/ledfb/ledfb_esp32.cpp);
* `PixelDataBuffer.at` and the 2D view `LedFB.at` sentinel behaviour
  (src/ledfb/ledfb.hpp).

Machine integers are modelled as `Nat` (the C++ code uses `unsigned`/`size_t`;
within the coordinate domains of the stated properties no wrap-around occurs),
except where truncation is observable: `uint8_t` storage in `CRGB` is modelled
with `% 256`, the `uint16_t` return of `colorCRGBto16` with `% 65536`, and the
`int16_t`→`uint16_t` coordinate cast in `LedFB.at` explicitly.  Heap
allocations (a `std::vector`'s `data()` pointer) are modelled by an identity
token carried alongside the element list, so that "the sink's attached
pointer" is expressible.
-/

/-- Three 8-bit color channels, as FastLED's `CRGB`. Channels are stored as
`Nat` values; the smart constructor `CRGB.mk8` performs the `uint8_t`
truncation that happens on assignment in C++. -/
structure CRGB where
  r : Nat
  g : Nat
  b : Nat
deriving DecidableEq, Repr

/-- `uint8_t` narrowing on each channel, as performed by the C++ `CRGB`
constructor taking integer arguments. -/
def CRGB.mk8 (r g b : Nat) : CRGB := ⟨r % 256, g % 256, b % 256⟩

/-- `CRGB::Black`, the all-zero color (also the default transparent color). -/
def CRGB.black : CRGB := ⟨0, 0, 0⟩

/-- `LedFB_GFX::color16toCRGB` (src/ledfb/ledfb.hpp:845):
`CRGB( ((c>>11 & 0x1f) * 527 + 23) >> 6, ((c>>5 & 0xfc) * 259 + 33) >> 6,
((c&0x1f) * 527 + 23) >> 6 )`. -/
def LedFB_GFX.color16toCRGB (c : Nat) : CRGB :=
  CRGB.mk8 (((c >>> 11 &&& 0x1f) * 527 + 23) >>> 6)
           (((c >>> 5 &&& 0xfc) * 259 + 33) >>> 6)
           (((c &&& 0x1f) * 527 + 23) >>> 6)

/-- `LedFB_GFX::colorCRGBto16` (src/ledfb/ledfb.hpp:846):
`c.r >> 3 << 11 | c.g >> 2 << 5 | c.b >> 3`, returned as `uint16_t`. -/
def LedFB_GFX.colorCRGBto16 (c : CRGB) : Nat :=
  (c.r >>> 3 <<< 11 ||| c.g >>> 2 <<< 5 ||| c.b >>> 3) % 65536

/-- Stripe topology descriptor: the four booleans of `class LedStripe`
(src/ledfb/ledstripe.hpp). -/
structure LedStripe where
  snake : Bool
  vertical : Bool
  vmirror : Bool
  hmirror : Bool
deriving DecidableEq, Repr

/-- `LedStripe::transpose` (src/ledfb/ledstripe.cpp:14-27), translated
line by line.  A C++ `(expr) % 2` used as a boolean is `expr % 2 != 0`. -/
def LedStripe.transpose (s : LedStripe) (w h x y : Nat) : Nat :=
  if s.vertical then
    let virtual_v_mirror : Bool :=
      if s.snake && ((if s.hmirror then w - x - 1 else x) % 2 != 0)
      then !s.vmirror else s.vmirror
    let xx : Nat := if s.hmirror then w - x - 1 else x
    let yy : Nat := if virtual_v_mirror then h - y - 1 else y
    xx * h + yy
  else
    let virtual_h_mirror : Bool :=
      if s.snake && ((if s.vmirror then h - y - 1 else y) % 2 != 0)
      then !s.hmirror else s.hmirror
    let xx : Nat := if virtual_h_mirror then w - x - 1 else x
    let yy : Nat := if s.vmirror then h - y - 1 else y
    yy * w + xx

/-- Tiled topology descriptor: `class LedTiles` (src/ledfb/ledstripe.hpp).
The inherited per-tile `LedStripe` flags are the `stripe` field; `tileLayout`
chains the tiles themselves. -/
structure LedTiles where
  stripe : LedStripe
  tile_w : Nat
  tile_h : Nat
  tile_wcnt : Nat
  tile_hcnt : Nat
  tileLayout : LedStripe
deriving DecidableEq, Repr

/-- `LedTiles::tiled_transpose` (src/ledfb/ledstripe.cpp:36-49). -/
def LedTiles.tiled_transpose (t : LedTiles) (w h x y : Nat) : Nat :=
  let tile_x := x / t.tile_w
  let tile_y := y / t.tile_h
  let tile_num := t.tileLayout.transpose t.tile_wcnt t.tile_hcnt tile_x tile_y
  let px_in_tile := t.stripe.transpose t.tile_w t.tile_h (x % t.tile_w) (y % t.tile_h)
  t.tile_w * t.tile_h * tile_num + px_in_tile

/-- `LedTiles::transpose` (src/ledfb/ledstripe.cpp:29-34). -/
def LedTiles.transpose (t : LedTiles) (w h x y : Nat) : Nat :=
  if t.tile_wcnt = 1 ∧ t.tile_hcnt = 1 then t.stripe.transpose w h x y
  else t.tiled_transpose w h x y

/-! ## Topology mapper: structural lemmas

`LedStripe::transpose` in both orientations is the map
`(outer, inner) ↦ ρ(outer) * n + ρ'(ρ(outer), inner)` where `ρ` reflects the
outer coordinate (vertical mirror for horizontal stripes, horizontal mirror
for vertical ones) and the inner reflection flag depends only on the parity
of the *already reflected* outer coordinate — this is what makes the map
invertible row by row. -/

/-- The `b ? n - k - 1 : k` reflection used throughout `LedStripe::transpose`. -/
def mirrorIdx (b : Bool) (n k : Nat) : Nat := if b then n - k - 1 else k

/-- Effective horizontal-mirror flag of a (already vertically reflected) row
`yy`, from the `virtual_h_mirror` computation in the horizontal branch. -/
def LedStripe.hFlag (s : LedStripe) (yy : Nat) : Bool :=
  if s.snake && (yy % 2 != 0) then !s.hmirror else s.hmirror

/-- Effective vertical-mirror flag of a (already horizontally reflected)
column `xx`, from the `virtual_v_mirror` computation in the vertical branch. -/
def LedStripe.vFlag (s : LedStripe) (xx : Nat) : Bool :=
  if s.snake && (xx % 2 != 0) then !s.vmirror else s.vmirror

theorem mirrorIdx_lt (b : Bool) {n k : Nat} (hk : k < n) : mirrorIdx b n k < n := by
  cases b <;> simp [mirrorIdx] <;> omega

theorem mirrorIdx_invol (b : Bool) {n k : Nat} (hk : k < n) :
    mirrorIdx b n (mirrorIdx b n k) = k := by
  cases b <;> simp [mirrorIdx] <;> omega

/-- In the horizontal branch the parity driving `virtual_h_mirror` is tested
on `vmirror ? h-y-1 : y`, which is exactly the reflected row index `yy`. -/
theorem LedStripe.transpose_horiz (s : LedStripe) (hs : s.vertical = false)
    (w h x y : Nat) :
    s.transpose w h x y =
      mirrorIdx s.vmirror h y * w
        + mirrorIdx (s.hFlag (mirrorIdx s.vmirror h y)) w x := by
  simp [LedStripe.transpose, hs, LedStripe.hFlag, mirrorIdx]

/-- In the vertical branch the parity driving `virtual_v_mirror` is tested
on `hmirror ? w-x-1 : x`, which is exactly the reflected column index `xx`. -/
theorem LedStripe.transpose_vert (s : LedStripe) (hs : s.vertical = true)
    (w h x y : Nat) :
    s.transpose w h x y =
      mirrorIdx s.hmirror w x * h
        + mirrorIdx (s.vFlag (mirrorIdx s.hmirror w x)) h y := by
  simp [LedStripe.transpose, hs, LedStripe.vFlag, mirrorIdx]

/-- Range bound for maps of the shape `p a * n + q (p a) b`. -/
theorem gridmap_lt {n m : Nat} (p : Nat → Nat) (q : Nat → Nat → Nat)
    (hp : ∀ a, a < m → p a < m) (hq : ∀ a b, a < m → b < n → q a b < n)
    {a b : Nat} (ha : a < m) (hb : b < n) :
    p a * n + q (p a) b < m * n := by
  have h1 := hp a ha
  have h2 := hq (p a) b h1 hb
  have e : (p a + 1) * n = p a * n + n := Nat.succ_mul _ _
  have h3 : (p a + 1) * n ≤ m * n := Nat.mul_le_mul_right n (by omega)
  omega

theorem gridmap_decompose {n A B : Nat} (hB : B < n) :
    (A * n + B) / n = A ∧ (A * n + B) % n = B := by
  have hn : 0 < n := by omega
  refine ⟨?_, ?_⟩
  · rw [Nat.add_comm, Nat.add_mul_div_right _ _ hn, Nat.div_eq_of_lt hB, Nat.zero_add]
  · rw [Nat.add_comm, Nat.add_mul_mod_self_right, Nat.mod_eq_of_lt hB]

/-- Maps of the shape `(a, b) ↦ p a * n + q (p a) b`, with `p` an involution
on `[0, m)` and each `q c` an involution on `[0, n)`, hit every offset in
`[0, m*n)` exactly once. -/
theorem gridmap_existsUnique {n m : Nat} (p : Nat → Nat) (q : Nat → Nat → Nat)
    (hp : ∀ a, a < m → p a < m) (hpp : ∀ a, a < m → p (p a) = a)
    (hq : ∀ a b, a < m → b < n → q a b < n)
    (hqq : ∀ a b, a < m → b < n → q a (q a b) = b)
    {i : Nat} (hi : i < m * n) :
    ∃! ab : Nat × Nat, (ab.1 < m ∧ ab.2 < n) ∧ p ab.1 * n + q (p ab.1) ab.2 = i := by
  have hn : 0 < n := by
    rcases Nat.eq_zero_or_pos n with h | h
    · subst h; simp at hi
    · exact h
  have hA : i / n < m := Nat.div_lt_of_lt_mul (by rwa [Nat.mul_comm] at hi)
  have hB : i % n < n := Nat.mod_lt _ hn
  refine ⟨(p (i / n), q (i / n) (i % n)), ⟨⟨hp _ hA, hq _ _ hA hB⟩, ?_⟩, ?_⟩
  · show p (p (i / n)) * n + q (p (p (i / n))) (q (i / n) (i % n)) = i
    rw [hpp _ hA, hqq _ _ hA hB]
    exact Nat.div_add_mod' i n
  · rintro ⟨a, b⟩ ⟨⟨ha, hb⟩, hval⟩
    have hpa := hp a ha
    have hqb := hq (p a) b hpa hb
    obtain ⟨hdiv, hmod⟩ := gridmap_decompose hqb
    rw [hval] at hdiv hmod
    have e1 : p (i / n) = a := by rw [hdiv, hpp a ha]
    have e2 : q (i / n) (i % n) = b := by rw [hdiv, hmod, hqq _ _ hpa hb]
    simp [e1, e2]

/-- C1: For every stripe topology descriptor (any combination of the snake,
vertical, vmirror and hmirror flags) and every width `w ≥ 1` and height
`h ≥ 1`, the map `(x,y) ↦ LedStripe::transpose(w,h,x,y)` restricted to
`0 ≤ x < w`, `0 ≤ y < h` is a bijection onto `[0, w*h)`: every value lands
in range, and every offset is produced by exactly one coordinate pair. -/
theorem stripe_transpose_bijection (s : LedStripe) (w h : Nat)
    (hw : 0 < w) (hh : 0 < h) :
    (∀ x y, x < w → y < h → s.transpose w h x y < w * h) ∧
    (∀ i, i < w * h →
      ∃! xy : Nat × Nat, (xy.1 < w ∧ xy.2 < h) ∧ s.transpose w h xy.1 xy.2 = i) := by
  constructor
  · intro x y hx hy
    cases hv : s.vertical
    · rw [s.transpose_horiz hv, Nat.mul_comm w h]
      exact gridmap_lt (mirrorIdx s.vmirror h)
        (fun a b => mirrorIdx (s.hFlag a) w b)
        (fun a ha => mirrorIdx_lt _ ha)
        (fun a b _ hb => mirrorIdx_lt _ hb) hy hx
    · rw [s.transpose_vert hv]
      exact gridmap_lt (mirrorIdx s.hmirror w)
        (fun a b => mirrorIdx (s.vFlag a) h b)
        (fun a ha => mirrorIdx_lt _ ha)
        (fun a b _ hb => mirrorIdx_lt _ hb) hx hy
  · intro i hi
    cases hv : s.vertical
    · obtain ⟨⟨a, b⟩, ⟨⟨ha, hb⟩, hval⟩, huniq⟩ :=
        gridmap_existsUnique (mirrorIdx s.vmirror h)
          (fun a b => mirrorIdx (s.hFlag a) w b)
          (fun a ha => mirrorIdx_lt _ ha)
          (fun a ha => mirrorIdx_invol _ ha)
          (fun a b _ hb => mirrorIdx_lt _ hb)
          (fun a b _ hb => mirrorIdx_invol _ hb)
          (by rwa [Nat.mul_comm] at hi)
      refine ⟨(b, a), ⟨⟨hb, ha⟩, ?_⟩, ?_⟩
      · rw [s.transpose_horiz hv]; exact hval
      · rintro ⟨x, y⟩ ⟨⟨hx, hy⟩, hxy⟩
        have h2 := huniq (y, x) ⟨⟨hy, hx⟩, by rw [← s.transpose_horiz hv]; exact hxy⟩
        simp only [Prod.mk.injEq] at h2 ⊢
        exact ⟨h2.2, h2.1⟩
    · have hiff : ∀ xy : Nat × Nat,
          ((xy.1 < w ∧ xy.2 < h) ∧ s.transpose w h xy.1 xy.2 = i) ↔
          ((xy.1 < w ∧ xy.2 < h) ∧
            mirrorIdx s.hmirror w xy.1 * h
              + mirrorIdx (s.vFlag (mirrorIdx s.hmirror w xy.1)) h xy.2 = i) := by
        intro xy
        rw [s.transpose_vert hv]
      rw [existsUnique_congr hiff]
      exact gridmap_existsUnique (mirrorIdx s.hmirror w)
        (fun a b => mirrorIdx (s.vFlag a) h b)
        (fun a ha => mirrorIdx_lt _ ha)
        (fun a ha => mirrorIdx_invol _ ha)
        (fun a b _ hb => mirrorIdx_lt _ hb)
        (fun a b _ hb => mirrorIdx_invol _ hb) hi

/-- Witness for C1: the theorem applied to a snake stripe of width 3 and
height 2. -/
theorem stripe_transpose_bijection_witness :
    (0 : Nat) < 3 ∧ (0 : Nat) < 2 ∧
    ((∀ x y, x < 3 → y < 2 →
        LedStripe.transpose ⟨true, false, false, false⟩ 3 2 x y < 3 * 2) ∧
     (∀ i, i < 3 * 2 → ∃! xy : Nat × Nat, (xy.1 < 3 ∧ xy.2 < 2) ∧
        LedStripe.transpose ⟨true, false, false, false⟩ 3 2 xy.1 xy.2 = i)) :=
  ⟨by decide, by decide,
   stripe_transpose_bijection ⟨true, false, false, false⟩ 3 2 (by decide) (by decide)⟩

/-- C9: for snake=true, vertical=false, vmirror=false, hmirror=false,
width 4, height 2: row 0 maps left-to-right to offsets 0,1,2,3 and row 1
right-to-left to offsets 4..7; in particular `transpose(4,2,3,1) = 4` and
`transpose(4,2,0,1) = 7`. -/
theorem snake_stripe_4x2_concrete :
    LedStripe.transpose ⟨true, false, false, false⟩ 4 2 0 0 = 0 ∧
    LedStripe.transpose ⟨true, false, false, false⟩ 4 2 1 0 = 1 ∧
    LedStripe.transpose ⟨true, false, false, false⟩ 4 2 2 0 = 2 ∧
    LedStripe.transpose ⟨true, false, false, false⟩ 4 2 3 0 = 3 ∧
    LedStripe.transpose ⟨true, false, false, false⟩ 4 2 3 1 = 4 ∧
    LedStripe.transpose ⟨true, false, false, false⟩ 4 2 2 1 = 5 ∧
    LedStripe.transpose ⟨true, false, false, false⟩ 4 2 1 1 = 6 ∧
    LedStripe.transpose ⟨true, false, false, false⟩ 4 2 0 1 = 7 := by
  decide

/-- C8: for every tiled descriptor whose tile counts are both 1,
`LedTiles::transpose` returns exactly `LedStripe::transpose` with the same
(inherited) stripe flags, for every coordinate. -/
theorem tiles_transpose_degenerates (t : LedTiles)
    (hw : t.tile_wcnt = 1) (hh : t.tile_hcnt = 1) (w h x y : Nat) :
    t.transpose w h x y = t.stripe.transpose w h x y := by
  simp [LedTiles.transpose, hw, hh]

/-- Witness for C8: a 4×4 single-tile layout agrees with its stripe at (2,3). -/
theorem tiles_transpose_degenerates_witness :
    LedTiles.transpose ⟨⟨true, false, false, false⟩, 4, 4, 1, 1, ⟨false, false, false, false⟩⟩ 4 4 2 3
      = LedStripe.transpose ⟨true, false, false, false⟩ 4 4 2 3 :=
  tiles_transpose_degenerates
    ⟨⟨true, false, false, false⟩, 4, 4, 1, 1, ⟨false, false, false, false⟩⟩
    rfl rfl 4 4 2 3

/-- C2 fails on the code: round-tripping the packed value 0x0020 (green
field = 1) through `color16toCRGB` / `colorCRGBto16` yields 0, not 0x0020.
The green extraction `(c >> 5) & 0xfc` reads bits 7..12 of `c` instead of
the 6-bit green field `(c >> 5) & 0x3f`, so the low green bits are lost. -/
theorem color_roundtrip_fails_at_0x20 :
    LedFB_GFX.colorCRGBto16 (LedFB_GFX.color16toCRGB 32) ≠ 32 := by
  decide

/-! ## Bound pixel store (`CLedCDB`) and the CLEDController sink

A C++ `std::vector<CRGB>` is modelled as a `Buffer`: an allocation-identity
token (standing for the `data()` pointer) plus the element list; `std::swap`
of two vectors exchanges whole `Buffer`s.  A `CLEDController*` is a `Nat`
identity, and the global attachment state of all controllers (what
`setLeds(ptr, len)` last installed) is a function `Sinks`. -/

/-- What a CLEDController reads from: the allocation its `leds` pointer
references and the length passed to `setLeds`. -/
structure SinkAttach where
  bufId : Nat
  len : Nat
deriving DecidableEq, Repr

/-- A backing `std::vector<CRGB>`: allocation identity plus elements. -/
structure Buffer where
  id : Nat
  data : List CRGB
deriving DecidableEq, Repr

/-- Attachment state of every CLEDController, indexed by controller identity. -/
def Sinks := Nat → Option SinkAttach

/-- `class CLedCDB` (src/ledfb/ledfb.hpp:144): a pixel buffer optionally
bound to one CLEDController (`cled`; a null pointer is `none`). -/
structure CLedCDB where
  buf : Buffer
  cled : Option Nat
deriving DecidableEq, Repr

/-- `CLedCDB::_reset_cled` (src/ledfb/ledfb.hpp:156): if bound, re-point the
bound controller at this buffer's current data pointer and size. -/
def CLedCDB.reset_cled (s : CLedCDB) (sinks : Sinks) : Sinks :=
  match s.cled with
  | none => sinks
  | some c => fun k => if k = c then some ⟨s.buf.id, s.buf.data.length⟩ else sinks k

/-- `CLedCDB::bind` (src/ledfb/ledfb.cpp:77-89): reject a null pointer,
reject when already bound to a different controller, else record the binding
and `_reset_cled`.  Returns the C++ boolean result together with the updated
store and controller-attachment states. -/
def CLedCDB.bind (s : CLedCDB) (sinks : Sinks) (pLed : Option Nat) :
    Bool × CLedCDB × Sinks :=
  match pLed with
  | none => (false, s, sinks)
  | some p =>
    if s.cled ≠ none ∧ s.cled ≠ some p then (false, s, sinks)
    else
      let s2 : CLedCDB := { s with cled := some p }
      (true, s2, s2.reset_cled sinks)

/-- `CLedCDB::swap(CLedCDB&)` (src/ledfb/ledfb.cpp:65-69):
`std::swap(fb, rhs.fb)` exchanges the two backing vectors wholesale (the
allocations change owners; no element is copied), then both sides
`_reset_cled`, the callee first. -/
def CLedCDB.swap (a b : CLedCDB) (sinks : Sinks) : CLedCDB × CLedCDB × Sinks :=
  let a2 : CLedCDB := { a with buf := b.buf }
  let b2 : CLedCDB := { b with buf := a.buf }
  (a2, b2, b2.reset_cled (a2.reset_cled sinks))

/-- `CLedCDB::rebind` (src/ledfb/ledfb.cpp:91-96): swap the `cled` pointers
of the two stores, then both sides `_reset_cled`, the callee first. -/
def CLedCDB.rebind (a b : CLedCDB) (sinks : Sinks) : CLedCDB × CLedCDB × Sinks :=
  let a2 : CLedCDB := { a with cled := b.cled }
  let b2 : CLedCDB := { b with cled := a.cled }
  (a2, b2, b2.reset_cled (a2.reset_cled sinks))

/-- C4: `bind` returns false and changes nothing when the pointer is null or
the store is bound to a different controller; it returns true when unbound or
re-binding the same controller, and then the controller is immediately
re-attached to the store's current storage (pointer identity and length). -/
theorem bind_exclusive (s : CLedCDB) (sinks : Sinks) (p : Nat) :
    (s.bind sinks none = (false, s, sinks)) ∧
    (∀ c, s.cled = some c → c ≠ p → s.bind sinks (some p) = (false, s, sinks)) ∧
    ((s.cled = none ∨ s.cled = some p) →
      (s.bind sinks (some p)).1 = true ∧
      (s.bind sinks (some p)).2.1 = { s with cled := some p } ∧
      (s.bind sinks (some p)).2.2 p = some ⟨s.buf.id, s.buf.data.length⟩) := by
  refine ⟨rfl, ?_, ?_⟩
  · intro c hc hne
    simp [CLedCDB.bind, hc, hne]
  · intro hcase
    have hcond : ¬(s.cled ≠ none ∧ s.cled ≠ some p) := by
      rcases hcase with hn | hs
      · simp [hn]
      · simp [hs]
    simp [CLedCDB.bind, hcond, CLedCDB.reset_cled]

/-- Witness for C4: binding an unbound store to controller 3 succeeds and
attaches controller 3 to the store's storage (allocation 7, length 1). -/
theorem bind_exclusive_witness :
    (CLedCDB.bind ⟨⟨7, [CRGB.black]⟩, none⟩ (fun _ => none) (some 3)).1 = true ∧
    (CLedCDB.bind ⟨⟨7, [CRGB.black]⟩, none⟩ (fun _ => none) (some 3)).2.1
      = ⟨⟨7, [CRGB.black]⟩, some 3⟩ ∧
    (CLedCDB.bind ⟨⟨7, [CRGB.black]⟩, none⟩ (fun _ => none) (some 3)).2.2 3
      = some ⟨7, 1⟩ :=
  (bind_exclusive ⟨⟨7, [CRGB.black]⟩, none⟩ (fun _ => none) 3).2.2 (Or.inl rfl)

/-- C6: `swap` exchanges the two stores' backing storages wholesale (the
allocation identities move between the stores, no element copy), and each
participant's bound controller (if any) is re-attached to that participant's
new, post-swap storage — never to its pre-swap one.  The hypothesis rules out
the degenerate aliasing where both stores are bound to the same controller. -/
theorem swap_resyncs_sinks (a b : CLedCDB) (sinks : Sinks)
    (hdisj : ∀ c, a.cled = some c → b.cled ≠ some c) :
    ((a.swap b sinks).1.buf = b.buf ∧ (a.swap b sinks).2.1.buf = a.buf) ∧
    (∀ c, a.cled = some c →
      (a.swap b sinks).2.2 c = some ⟨b.buf.id, b.buf.data.length⟩ ∧
      (a.buf.id ≠ b.buf.id →
        (a.swap b sinks).2.2 c ≠ some ⟨a.buf.id, a.buf.data.length⟩)) ∧
    (∀ c, b.cled = some c →
      (a.swap b sinks).2.2 c = some ⟨a.buf.id, a.buf.data.length⟩ ∧
      (a.buf.id ≠ b.buf.id →
        (a.swap b sinks).2.2 c ≠ some ⟨b.buf.id, b.buf.data.length⟩)) := by
  have hval : ∀ c, a.cled = some c →
      (a.swap b sinks).2.2 c = some ⟨b.buf.id, b.buf.data.length⟩ := by
    intro c hc
    have hb := hdisj c hc
    simp only [CLedCDB.swap, CLedCDB.reset_cled]
    cases hbc : b.cled with
    | none => simp [hc]
    | some cb =>
      have hcb : ¬(c = cb) := by
        intro e
        exact hb (by rw [hbc, e])
      simp [hc, hbc, hcb]
  have hvalb : ∀ c, b.cled = some c →
      (a.swap b sinks).2.2 c = some ⟨a.buf.id, a.buf.data.length⟩ := by
    intro c hc
    simp [CLedCDB.swap, CLedCDB.reset_cled, hc]
  refine ⟨⟨rfl, rfl⟩, ?_, ?_⟩
  · intro c hc
    refine ⟨hval c hc, ?_⟩
    intro hne habs
    rw [hval c hc] at habs
    exact hne (by injection habs with h2; exact (congrArg SinkAttach.bufId h2).symm)
  · intro c hc
    refine ⟨hvalb c hc, ?_⟩
    intro hne habs
    rw [hvalb c hc] at habs
    exact hne (by injection habs with h2; exact congrArg SinkAttach.bufId h2)

/-- Witness for C6: swapping a store on allocation 1 (bound to controller 0)
with an unbound store on allocation 2 re-attaches controller 0 to
allocation 2 with the new length. -/
theorem swap_resyncs_sinks_witness :
    (CLedCDB.swap ⟨⟨1, [CRGB.black]⟩, some 0⟩ ⟨⟨2, [CRGB.black, CRGB.black]⟩, none⟩
        (fun _ => none)).2.2 0 = some ⟨2, 2⟩ ∧
    ((1 : Nat) ≠ 2 →
      (CLedCDB.swap ⟨⟨1, [CRGB.black]⟩, some 0⟩ ⟨⟨2, [CRGB.black, CRGB.black]⟩, none⟩
        (fun _ => none)).2.2 0 ≠ some ⟨1, 1⟩) :=
  ((swap_resyncs_sinks ⟨⟨1, [CRGB.black]⟩, some 0⟩ ⟨⟨2, [CRGB.black, CRGB.black]⟩, none⟩
      (fun _ => none) (by intro c hc; simp)).2.1) 0 rfl

/-! ## Display engines: `toggleBuffer` -/

/-- `ESP32RMTDisplayEngine` buffer/binding state (src/ledfb/ledfb_esp32.hpp:21):
active-buffer flag (`true` = canvas), canvas, optional back buffer. -/
structure ESP32RMTDisplayEngine where
  active_buff : Bool
  canvas : CLedCDB
  backbuff : Option CLedCDB
deriving DecidableEq, Repr

/-- `ESP32RMTDisplayEngine::toggleBuffer` (src/ledfb/ledfb_esp32.cpp:143-150):
if a back buffer exists, `canvas->rebind(*backbuff)` and flip `_active_buff`;
always return `_active_buff`. -/
def ESP32RMTDisplayEngine.toggleBuffer (e : ESP32RMTDisplayEngine) (sinks : Sinks) :
    Bool × ESP32RMTDisplayEngine × Sinks :=
  match e.backbuff with
  | some bb =>
    let r := e.canvas.rebind bb sinks
    (!e.active_buff, ⟨!e.active_buff, r.1, some r.2.1⟩, r.2.2)
  | none => (e.active_buff, e, sinks)

/-- `ESP32HUB75_DisplayEngine` buffer state (src/ledfb/ledfb_esp32.hpp:201):
plain pixel buffers, no controller binding involved. -/
structure ESP32HUB75_DisplayEngine where
  active_buff : Bool
  canvas : Buffer
  backbuff : Option Buffer
deriving DecidableEq, Repr

/-- `ESP32HUB75_DisplayEngine::toggleBuffer` (src/ledfb/ledfb_esp32.cpp:247-252):
flip `_active_buff` if a back buffer exists; always return `_active_buff`. -/
def ESP32HUB75_DisplayEngine.toggleBuffer (e : ESP32HUB75_DisplayEngine) :
    Bool × ESP32HUB75_DisplayEngine :=
  match e.backbuff with
  | some _ => (!e.active_buff, { e with active_buff := !e.active_buff })
  | none => (e.active_buff, e)

/-- C3 is false as stated: on the RMT engine, with the canvas bound to
controller 0 and a back buffer present, `toggleBuffer` moves the binding off
the canvas onto the back buffer (via `rebind`) and re-points controller 0 at
the back buffer's storage (allocation 1), so the sink binding is touched. -/
theorem toggleBuffer_touches_binding :
    ((⟨true, ⟨⟨0, [CRGB.black]⟩, some 0⟩, some ⟨⟨1, [CRGB.black]⟩, none⟩⟩ :
        ESP32RMTDisplayEngine).canvas.cled = some 0) ∧
    ((ESP32RMTDisplayEngine.toggleBuffer
        ⟨true, ⟨⟨0, [CRGB.black]⟩, some 0⟩, some ⟨⟨1, [CRGB.black]⟩, none⟩⟩
        (fun k => if k = 0 then some ⟨0, 1⟩ else none)).2.1.canvas.cled = none) ∧
    ((ESP32RMTDisplayEngine.toggleBuffer
        ⟨true, ⟨⟨0, [CRGB.black]⟩, some 0⟩, some ⟨⟨1, [CRGB.black]⟩, none⟩⟩
        (fun k => if k = 0 then some ⟨0, 1⟩ else none)).2.2 0 = some ⟨1, 1⟩) := by
  refine ⟨rfl, rfl, ?_⟩
  decide

/-- C3 amended: `toggleBuffer` flips the active-buffer flag when a back
buffer exists, leaves it unchanged otherwise, returns the resulting flag, and
never modifies the contents of canvas or back buffer; the HUB75 engine
changes nothing but the flag, while the RMT engine additionally swaps the
CLEDController binding between canvas and back buffer. -/
theorem toggleBuffer_behaviour :
    (∀ (e : ESP32RMTDisplayEngine) (sinks : Sinks),
      (e.backbuff = none → e.toggleBuffer sinks = (e.active_buff, e, sinks)) ∧
      (∀ bb, e.backbuff = some bb →
        (e.toggleBuffer sinks).1 = !e.active_buff ∧
        (e.toggleBuffer sinks).2.1.active_buff = !e.active_buff ∧
        (e.toggleBuffer sinks).2.1.canvas.buf = e.canvas.buf ∧
        (e.toggleBuffer sinks).2.1.backbuff = some { bb with cled := e.canvas.cled } ∧
        (e.toggleBuffer sinks).2.1.canvas.cled = bb.cled)) ∧
    (∀ e : ESP32HUB75_DisplayEngine,
      (e.backbuff = none → e.toggleBuffer = (e.active_buff, e)) ∧
      (∀ bb, e.backbuff = some bb →
        e.toggleBuffer = (!e.active_buff, { e with active_buff := !e.active_buff }))) := by
  refine ⟨?_, ?_⟩
  · intro e sinks
    refine ⟨?_, ?_⟩
    · intro hn
      simp [ESP32RMTDisplayEngine.toggleBuffer, hn]
    · intro bb hbb
      simp [ESP32RMTDisplayEngine.toggleBuffer, hbb, CLedCDB.rebind]
  · intro e
    refine ⟨?_, ?_⟩
    · intro hn
      simp [ESP32HUB75_DisplayEngine.toggleBuffer, hn]
    · intro bb hbb
      simp [ESP32HUB75_DisplayEngine.toggleBuffer, hbb]

/-- Witness for the amended C3: a HUB75 engine without a back buffer is left
entirely unchanged and its current flag is returned. -/
theorem toggleBuffer_behaviour_witness :
    ESP32HUB75_DisplayEngine.toggleBuffer ⟨true, ⟨5, []⟩, none⟩
      = (true, ⟨true, ⟨5, []⟩, none⟩) :=
  (toggleBuffer_behaviour.2 ⟨true, ⟨5, []⟩, none⟩).1 rfl

/-! ## Render cycle with overlay

The templated `DisplayEngine<CRGB>` base class that both engines in
`ledfb_esp32.hpp` derive from — the one whose `show()` composites the
overlay before calling `engine_show()` — is not present in the sources:
`ledfb_esp32.cpp` keeps the compositing loops (`_ovr_overlap`,
`_switch_to_bb`, the overlay-aware `engine_show`) only inside comments, and
the live `engine_show` pushes directly.  The render cycle below is therefore
modelled from the specification (§4.3 `show()` algorithm, §3 engine state). -/

/-- Per-pixel overlay compositing: the destination takes the overlay's pixel
unless it equals the transparent color, in which case the canvas pixel is
kept. -/
def compositeOverlay (t : CRGB) (ovr canvas : List CRGB) : List CRGB :=
  List.zipWith (fun o c => if o = t then c else o) ovr canvas

/-- Modelled from the spec: the Display Engine state of spec §3 — canvas,
optional back buffer, weakly-held overlay (`none` when expired),
canvas-protect flag and transparent/key color.  The templated
`DisplayEngine<CRGB>` carrying this state is missing from src (only its
derived classes appear, in src/ledfb/ledfb_esp32.hpp). -/
structure DisplayEngineModel where
  canvas : List CRGB
  backbuff : Option (List CRGB)
  overlay : Option (List CRGB)
  canvas_protect : Bool
  transparent : CRGB

/-- Modelled from the spec: the five-step `show()` render cycle of spec §4.3,
whose implementation (`DisplayEngine<CRGB>::show`) is missing from src:
1. overlay expired → push canvas directly; 2. overlay alive, canvas
protected, no back buffer → activate a (freshly allocated) back buffer;
3. back buffer present but no longer needed (canvas unprotected) → release
it; 4. composite the overlay into the destination (back buffer if present,
else canvas); 5. push the destination.  Returns the pushed pixel data and
the post-render state. -/
def DisplayEngineModel.show (e : DisplayEngineModel) : List CRGB × DisplayEngineModel :=
  match e.overlay with
  | none => (e.canvas, e)
  | some ovr =>
    let e1 := if e.canvas_protect && e.backbuff.isNone
      then { e with backbuff := some (List.replicate e.canvas.length CRGB.black) }
      else e
    let e2 := if e1.backbuff.isSome && !e1.canvas_protect
      then { e1 with backbuff := none } else e1
    let e3 := match e2.backbuff with
      | some _ => { e2 with backbuff := some (compositeOverlay e2.transparent ovr e2.canvas) }
      | none => { e2 with canvas := compositeOverlay e2.transparent ovr e2.canvas }
    (match e3.backbuff with
     | some bb => bb
     | none => e3.canvas, e3)

theorem compositeOverlay_all_transparent (t : CRGB) :
    ∀ ovr canvas : List CRGB, (∀ c ∈ ovr, c = t) → ovr.length = canvas.length →
      compositeOverlay t ovr canvas = canvas := by
  intro ovr
  induction ovr with
  | nil =>
    intro canvas _ hlen
    cases canvas with
    | nil => rfl
    | cons c cs => simp at hlen
  | cons o os ih =>
    intro canvas hall hlen
    cases canvas with
    | nil => simp at hlen
    | cons c cs =>
      have ho : o = t := hall o (by simp)
      have hos : ∀ x ∈ os, x = t := fun x hx => hall x (by simp [hx])
      simp only [compositeOverlay, List.zipWith] at ih ⊢
      simp [ho, ih cs hos (by simpa using hlen)]

theorem compositeOverlay_getD (t d : CRGB) :
    ∀ ovr cv : List CRGB, ovr.length = cv.length →
      ∀ i, i < cv.length →
        (compositeOverlay t ovr cv).getD i d =
          if ovr.getD i d = t then cv.getD i d else ovr.getD i d := by
  intro ovr
  induction ovr with
  | nil =>
    intro cv hlen i hi
    simp at hlen
    omega
  | cons o os ih =>
    intro cv hlen i hi
    cases cv with
    | nil => simp at hi
    | cons c cs =>
      cases i with
      | zero => simp [compositeOverlay]
      | succ n =>
        simp only [compositeOverlay, List.zipWith, List.getD_cons_succ]
        exact ih cs (by simpa using hlen) n (by simpa using hi)

theorem show_with_overlay (cv : List CRGB) (bb : Option (List CRGB))
    (ovr : List CRGB) (prot : Bool) (tr : CRGB) :
    (DisplayEngineModel.show ⟨cv, bb, some ovr, prot, tr⟩).1
      = compositeOverlay tr ovr cv ∧
    (match (DisplayEngineModel.show ⟨cv, bb, some ovr, prot, tr⟩).2.backbuff with
     | some b2 => b2
     | none => (DisplayEngineModel.show ⟨cv, bb, some ovr, prot, tr⟩).2.canvas)
      = compositeOverlay tr ovr cv := by
  cases prot <;> cases bb <;> simp [DisplayEngineModel.show]

/-- C5: in a render cycle with a live overlay, the data pushed to the sink
and the destination buffer (back buffer if present, else canvas) are the
per-pixel composite — each pixel comes from the overlay unless it equals the
transparent color, in which case the canvas's pixel is kept — and with an
all-transparent overlay the output is the canvas alone, for any canvas
content. -/
theorem overlay_transparency_law (e : DisplayEngineModel) (ovr : List CRGB)
    (hov : e.overlay = some ovr) (hlen : ovr.length = e.canvas.length) :
    ((∀ c ∈ ovr, c = e.transparent) → (e.show).1 = e.canvas) ∧
    ((e.show).1 = compositeOverlay e.transparent ovr e.canvas) ∧
    ((match (e.show).2.backbuff with
      | some b2 => b2
      | none => (e.show).2.canvas) = compositeOverlay e.transparent ovr e.canvas) ∧
    (∀ i, i < e.canvas.length →
      (compositeOverlay e.transparent ovr e.canvas).getD i CRGB.black =
        if ovr.getD i CRGB.black = e.transparent then e.canvas.getD i CRGB.black
        else ovr.getD i CRGB.black) := by
  obtain ⟨cv, bb, ov, prot, tr⟩ := e
  simp only at hov hlen ⊢
  subst hov
  obtain ⟨hout, hdest⟩ := show_with_overlay cv bb ovr prot tr
  refine ⟨?_, hout, hdest, ?_⟩
  · intro hall
    rw [hout]
    exact compositeOverlay_all_transparent tr ovr cv hall hlen
  · exact compositeOverlay_getD tr CRGB.black ovr cv hlen

/-- Witness for C5: a 2-pixel canvas `[red, blue]` with a live overlay
`[black, green]` and transparent = black: the pushed output keeps the canvas
pixel under the transparent overlay pixel and takes the overlay pixel
elsewhere. -/
theorem overlay_transparency_law_witness :
    (DisplayEngineModel.show
        ⟨[⟨255,0,0⟩, ⟨0,0,255⟩], none, some [⟨0,0,0⟩, ⟨0,255,0⟩], false, ⟨0,0,0⟩⟩).1
      = compositeOverlay ⟨0,0,0⟩ [⟨0,0,0⟩, ⟨0,255,0⟩] [⟨255,0,0⟩, ⟨0,0,255⟩] :=
  (overlay_transparency_law
    ⟨[⟨255,0,0⟩, ⟨0,0,255⟩], none, some [⟨0,0,0⟩, ⟨0,255,0⟩], false, ⟨0,0,0⟩⟩
    [⟨0,0,0⟩, ⟨0,255,0⟩] rfl rfl).2.1

/-! ## Sentinel (stub pixel) safety and the 2D view -/

/-- Reading through the reference returned by
`PixelDataBuffer<COLOR_TYPE>::at` (src/ledfb/ledfb.hpp:875-876):
`i < fb.size() ? fb.at(i) : stub_pixel`. -/
def PixelDataBuffer.atRead (fb : List CRGB) (stub : CRGB) (i : Nat) : CRGB :=
  if h : i < fb.length then fb.get ⟨i, h⟩ else stub

/-- Writing through the reference returned by `PixelDataBuffer::at`: an
in-range index updates that element; an out-of-range access writes into the
shared static `stub_pixel`, leaving the buffer itself untouched. -/
def PixelDataBuffer.atWrite (fb : List CRGB) (i : Nat) (c : CRGB) : List CRGB :=
  if i < fb.length then fb.set i c else fb

/-- The default row-major mapper `map_2d` (src/ledfb/ledfb.hpp:287):
`return y*w+x`. -/
def map_2d (w h x y : Nat) : Nat := y * w + x

/-- The `static_cast<uint16_t>` applied to the `int16_t` coordinates inside
`LedFB::at` (two's-complement wrap into `[0, 65536)`). -/
def castUInt16 (x : Int) : Nat := (x % 65536).toNat

/-- The 2D view `template<class COLOR_TYPE> class LedFB`
(src/ledfb/ledfb.hpp:297): declared width and height, a shared reference to
the pixel store (modelled as the identity `bufRef` of the shared
`PixelDataBuffer`; its element list is passed to the access functions
explicitly) and the pluggable coordinate mapper `_xymap`. -/
structure LedFB where
  w : Nat
  h : Nat
  bufRef : Nat
  xymap : Nat → Nat → Nat → Nat → Nat

/-- `LedFB::setRemapFunction` (src/ledfb/ledfb.hpp:370): `_xymap = mapper`. -/
def LedFB.setRemapFunction (v : LedFB) (mapper : Nat → Nat → Nat → Nat → Nat) : LedFB :=
  { v with xymap := mapper }

/-- `LedFB<COLOR_TYPE>::at(int16_t x, int16_t y)` (src/ledfb/ledfb.hpp:910-916)
read: `if (x>=_w) return buffer->stub_pixel;` else look up
`buffer->at(_xymap(_w,_h,(uint16_t)x,(uint16_t)y))`. -/
def LedFB.atRead (v : LedFB) (fb : List CRGB) (stub : CRGB) (x y : Int) : CRGB :=
  if (v.w : Int) ≤ x then stub
  else PixelDataBuffer.atRead fb stub (v.xymap v.w v.h (castUInt16 x) (castUInt16 y))

/-- Writing through the reference returned by `LedFB::at`. -/
def LedFB.atWrite (v : LedFB) (fb : List CRGB) (x y : Int) (c : CRGB) : List CRGB :=
  if (v.w : Int) ≤ x then fb
  else PixelDataBuffer.atWrite fb (v.xymap v.w v.h (castUInt16 x) (castUInt16 y)) c

/-- C7: an out-of-range linear access on the pixel store (any index past the
end, including the huge values produced by converting a negative integer)
reads the shared stub pixel and leaves every in-bounds element unchanged on
write; and a 2D-view access at any `x ≥ width` resolves to the stub — read
and write — no matter what linear index the raw mapping function would
compute. -/
theorem sentinel_safety (fb : List CRGB) (stub c : CRGB) :
    (∀ i, fb.length ≤ i →
      PixelDataBuffer.atRead fb stub i = stub ∧
      PixelDataBuffer.atWrite fb i c = fb) ∧
    (∀ (v : LedFB) (x y : Int), (v.w : Int) ≤ x →
      v.atRead fb stub x y = stub ∧ v.atWrite fb x y c = fb) := by
  constructor
  · intro i hi
    have hnl : ¬ i < fb.length := Nat.not_lt.mpr hi
    exact ⟨by simp [PixelDataBuffer.atRead, hnl],
           by simp [PixelDataBuffer.atWrite, hnl]⟩
  · intro v x y hx
    exact ⟨by simp [LedFB.atRead, hx], by simp [LedFB.atWrite, hx]⟩

/-- Witness for C7: on a 1-pixel store, the index `(size_t)(-1)` reads the
stub and writing there leaves the store unchanged; a 2×1 view accessed at
`x = 2 = width` resolves to the stub even though the identity-free raw
mapping `y*w+x` would give linear index 2 < ... (row wrap), and writing
there changes nothing. -/
theorem sentinel_safety_witness :
    (PixelDataBuffer.atRead [CRGB.black] ⟨1, 2, 3⟩ 18446744073709551615 = ⟨1, 2, 3⟩ ∧
     PixelDataBuffer.atWrite [CRGB.black] 18446744073709551615 ⟨9, 9, 9⟩ = [CRGB.black]) ∧
    (LedFB.atRead ⟨2, 1, 0, map_2d⟩ [CRGB.black] ⟨1, 2, 3⟩ 2 0 = ⟨1, 2, 3⟩ ∧
     LedFB.atWrite ⟨2, 1, 0, map_2d⟩ [CRGB.black] 2 0 ⟨9, 9, 9⟩ = [CRGB.black]) :=
  ⟨(sentinel_safety [CRGB.black] ⟨1, 2, 3⟩ ⟨9, 9, 9⟩).1 18446744073709551615 (by decide),
   (sentinel_safety [CRGB.black] ⟨1, 2, 3⟩ ⟨9, 9, 9⟩).2 ⟨2, 1, 0, map_2d⟩ 2 0 (by decide)⟩

/-- `LedFB`'s copy constructor (src/ledfb/ledfb.hpp:903-908): member-inits
`_w(rhs._w), _h(rhs._h), _xymap(map_2d)` and body `buffer = rhs.buffer` —
the new view shares the same pixel store (no clone), but the mapper is
initialized to `map_2d`, not copied from `rhs`. -/
def LedFB.copyCtor (rhs : LedFB) : LedFB :=
  { w := rhs.w, h := rhs.h, bufRef := rhs.bufRef, xymap := map_2d }

/-- C10: copy-constructing a 2D view yields a second view over the same
shared pixel store with the same width and height, but always resets the
coordinate mapper to the default row-major `y*w+x`, silently discarding any
custom mapper previously installed via `setRemapFunction`. -/
theorem ledfb_copy_resets_mapper (rhs : LedFB) (f : Nat → Nat → Nat → Nat → Nat) :
    (rhs.setRemapFunction f).copyCtor.w = rhs.w ∧
    (rhs.setRemapFunction f).copyCtor.h = rhs.h ∧
    (rhs.setRemapFunction f).copyCtor.bufRef = rhs.bufRef ∧
    (rhs.setRemapFunction f).copyCtor.xymap = map_2d ∧
    (∀ w h x y, (rhs.setRemapFunction f).copyCtor.xymap w h x y = y * w + x) :=
  ⟨rfl, rfl, rfl, rfl, fun _ _ _ _ => rfl⟩
